import Mathlib

/-
Shallow embedding of the chore-score backend domain logic
(src/backend/app): the data model (users, chores, completions), the pure
date helpers, and the router handlers that the verified claims are about.

Conventions of the embedding:
- Calendar dates are modelled by their proleptic Gregorian ordinal as in
  Python (date.toordinal); ordinal 1 is a Monday, so Python weekday() is
  (d + 6) % 7.  Arithmetic on dates (timedelta) is Int arithmetic.
- The relational store is a record of three lists kept in insertion order;
  query .first() is List.find?, .all() with a filter is List.filter.
- The current instant is passed in explicitly as the parameter today, the
  date of datetime.now(tz) in the configured time zone.  A completion row
  stores completed_day, the calendar day of its completed_at timestamp; the
  persistence layer fills completed_at with the current timestamp
  (server_default func.now()), so completed_day of an inserted row is the
  value of today at insert time.
- Python sorted() is a stable sort by a key; any two stable sorts by the
  same total preorder produce the same list, so it is embedded as a stable
  insertion sort (insertionSortB below), which is kernel-computable.
- HTTP error responses are mapped to the taxonomy of the specification:
  404 entity lookups to Err.NotFound, 400 duplicate completions to
  Err.Conflict, 400 future dates and bad enum values to
  Err.InvalidArgument, and the 400 last-admin refusal to
  Err.InvariantViolation.
-/

namespace ChoreScore

/-- Error taxonomy of the domain services (spec section 7). -/
inductive Err where
  | NotFound
  | Conflict
  | InvalidArgument
  | InvariantViolation
  deriving DecidableEq

/-- app/models/user.py: users table row. -/
structure User where
  id : Int
  name : String
  email : Option String
  is_admin : Bool
  is_active : Bool
  deriving DecidableEq

/-- app/models/chore.py (plus the day_of_week_2 migration and the is_adhoc
flag used by the routers): chores table row. -/
structure Chore where
  id : Int
  name : String
  description : Option String
  frequency : String
  day_of_week : Option Int
  day_of_week_2 : Option Int
  assigned_user_id : Option Int
  is_active : Bool
  is_adhoc : Bool
  deriving DecidableEq

/-- app/models/completion.py: completions table row.  completed_day is the
calendar day of the completed_at timestamp, which the store fills with the
current timestamp at insert (server_default func.now()). -/
structure Completion where
  id : Int
  chore_id : Int
  user_id : Int
  completed_day : Int
  week_start : Int
  notes : Option String
  deriving DecidableEq

/-- The relational store: three tables in insertion order. -/
structure DB where
  users : List User
  chores : List Chore
  completions : List Completion
  deriving DecidableEq

/-- Python date.weekday() on an ordinal day: 0 = Monday .. 6 = Sunday. -/
def pyWeekday (d : Int) : Int := (d + 6) % 7

/-- app/utils/helpers.py get_week_start: the Monday of the week containing
the date, computed by subtracting the weekday.  Pure and total. -/
def get_week_start (d : Int) : Int := d - pyWeekday d

/-- Python str.lower() on the character list of a string (the names used by
the application are ASCII, where Char.toLower agrees with Python). -/
def lowerChars (s : String) : List Char := s.data.map Char.toLower

/-- Python string comparison: lexicographic by code point, a proper prefix
comparing as smaller. -/
def lexLe : List Char → List Char → Bool
  | [], _ => true
  | _ :: _, [] => false
  | a :: as, b :: bs => if a < b then true else if a = b then lexLe as bs else false

/-- Stable insertion step: place a before the first element it is
less-or-equal to. -/
def orderedInsertB (le : α → α → Bool) (a : α) : List α → List α
  | [] => [a]
  | b :: l => if le a b then a :: b :: l else b :: orderedInsertB le a l

/-- Stable insertion sort; for a total preorder it returns the same list as
any stable sort, in particular Python sorted(). -/
def insertionSortB (le : α → α → Bool) : List α → List α
  | [] => []
  | a :: l => orderedInsertB le a (insertionSortB le l)

/-- app/routers/chores.py get_weekly_chores: frequency_order dictionary
with default 5 for unknown keys. -/
def frequency_order (f : String) : Nat :=
  if f == "daily" then 1
  else if f == "weekly" then 2
  else if f == "twice_weekly" then 3
  else if f == "monthly" then 4
  else 5

/-- Key of the first sort in get_weekly_chores: the pair
(frequency_order, name.lower()) compared lexicographically. -/
def freqNameLe (a b : Chore) : Bool :=
  frequency_order a.frequency < frequency_order b.frequency ||
    (frequency_order a.frequency == frequency_order b.frequency &&
      lexLe (lowerChars a.name) (lowerChars b.name))

/-- Key of the final sort in get_weekly_chores: name.lower() alone. -/
def nameLe (a b : Chore) : Bool := lexLe (lowerChars a.name) (lowerChars b.name)

/-- The frequencies accepted by the routers. -/
def validFrequency (f : String) : Bool :=
  f == "daily" || f == "weekly" || f == "twice_weekly" || f == "monthly"

/-- One chore entry of the weekly view response. -/
structure WeeklyEntry where
  id : Int
  name : String
  frequency : String
  is_adhoc : Bool
  week_completions : List Completion
  deriving DecidableEq

/-- The weekly view response: week_start, total_chores, completed_chores
and the per-chore list. -/
structure WeeklyResult where
  week_start : Int
  total_chores : Nat
  completed_chores : Nat
  chores : List WeeklyEntry
  deriving DecidableEq

/-- app/routers/chores.py get_weekly_chores, from the filtered active chore
list onward: frequency sort, completion map for the week, merge of adhoc
chores surfaced by their completions, final sort by name, and the totals. -/
def weeklyAssemble (db : DB) (ws : Int) (actives : List Chore) : WeeklyResult :=
  let sorted1 := insertionSortB freqNameLe actives
  let week_completions := db.completions.filter (fun c => c.week_start == ws)
  let active_ids := sorted1.map (fun ch => ch.id)
  let adhoc_ids :=
    (week_completions.filter (fun c => !(active_ids.contains c.chore_id))).map
      (fun c => c.chore_id)
  let adhoc_chores :=
    if adhoc_ids.isEmpty then []
    else db.chores.filter (fun ch => adhoc_ids.contains ch.id && ch.is_adhoc)
  let merged := sorted1 ++ adhoc_chores
  let final := insertionSortB nameLe merged
  let entries := final.map (fun ch =>
    { id := ch.id, name := ch.name, frequency := ch.frequency,
      is_adhoc := ch.is_adhoc,
      week_completions := week_completions.filter (fun c => c.chore_id == ch.id)
      : WeeklyEntry })
  { week_start := ws,
    total_chores := entries.length,
    completed_chores := (entries.map (fun e => e.week_completions.length)).sum,
    chores := entries }

/-- app/routers/chores.py get_weekly_chores: week_start defaulting, active
filter, truthiness-guarded user filter, validated frequency filter (an
empty string is falsy in Python and skips both validation and filter). -/
def get_weekly_chores (db : DB) (today : Int) (week_startq : Option Int)
    (user_idq : Option Int) (frequencyq : Option String) : Except Err WeeklyResult :=
  let ws := week_startq.getD (get_week_start today)
  let base := db.chores.filter (fun c => c.is_active)
  let byUser :=
    match user_idq with
    | some v => if v != 0 then base.filter (fun c => c.assigned_user_id == some v) else base
    | none => base
  match frequencyq with
  | some f =>
    if f != "" then
      if validFrequency f then
        .ok (weeklyAssemble db ws (byUser.filter (fun c => c.frequency == f)))
      else .error .InvalidArgument
    else .ok (weeklyAssemble db ws byUser)
  | none => .ok (weeklyAssemble db ws byUser)

/-- Request body of POST /api/completions (app/schemas/completion.py
CompletionCreate). -/
structure CompletionCreate where
  chore_id : Int
  user_id : Int
  week_start : Option Int
  completion_date : Option Int
  notes : Option String
  deriving DecidableEq

/-- The duplicate query of mark_chore_complete: a completion of the same
chore and week whose completed_at falls on the given calendar day. -/
def hasDayDuplicate (db : DB) (chore_id ws day : Int) : Bool :=
  db.completions.any (fun c =>
    c.chore_id == chore_id && c.week_start == ws && c.completed_day == day)

/-- app/routers/completions.py mark_chore_complete.  Control flow of the
source: chore lookup, user lookup, week_start defaulting; completion_dt
starts as the unflushed completed_at of the new row, which is None because
the column is filled by a server default; when completion_date is supplied
it is checked against today and completion_dt becomes now (so the duplicate
check compares against the current server day, and is skipped entirely when
completion_date is absent); the stored completed_at is always the current
timestamp. -/
def mark_chore_complete (db : DB) (today new_id : Int) (req : CompletionCreate) :
    Except Err (DB × Completion) :=
  match db.chores.find? (fun c => c.id == req.chore_id) with
  | none => .error .NotFound
  | some _ =>
    match db.users.find? (fun u => u.id == req.user_id) with
    | none => .error .NotFound
    | some _ =>
      let ws := req.week_start.getD (get_week_start today)
      match req.completion_date with
      | some d =>
        if d > today then .error .InvalidArgument
        else if hasDayDuplicate db req.chore_id ws today then .error .Conflict
        else
          let nc : Completion := ⟨new_id, req.chore_id, req.user_id, today, ws, req.notes⟩
          .ok ({ db with completions := db.completions ++ [nc] }, nc)
      | none =>
        let nc : Completion := ⟨new_id, req.chore_id, req.user_id, today, ws, req.notes⟩
        .ok ({ db with completions := db.completions ++ [nc] }, nc)

/-- Request body of POST /api/chores/adhoc (app/schemas/chore.py
AdhocChoreCreate): completion_date and week_start are required. -/
structure AdhocChoreCreate where
  name : String
  description : Option String
  user_id : Int
  completion_date : Int
  week_start : Int
  notes : Option String
  deriving DecidableEq

/-- An open unit of work: the stored state plus rows added to the session
(flushed but not committed). -/
structure Session where
  stored : DB
  pending_chores : List Chore
  pending_completions : List Completion
  deriving DecidableEq

/-- db.commit(): publish the pending inserts into the store. -/
def Session.commit (s : Session) : DB :=
  { users := s.stored.users,
    chores := s.stored.chores ++ s.pending_chores,
    completions := s.stored.completions ++ s.pending_completions }

/-- Modelled from the spec: the session provider app/database.py (get_db)
is not under src.  Per the specification each operation is atomic and a
failed adhoc create-and-complete must not persist the chore, so tearing a
session down on an error discards its uncommitted, merely flushed inserts
and leaves the stored state unchanged. -/
def Session.rollback (s : Session) : DB := s.stored

/-- The adhoc reuse lookup of create_adhoc_chore: first chore with this
exact name flagged adhoc. -/
def adhocLookup (db : DB) (name : String) : Option Chore :=
  db.chores.find? (fun c => c.name == name && c.is_adhoc)

/-- The chore row built by create_adhoc_chore when no adhoc chore with this
name exists yet. -/
def newAdhocChore (new_chore_id : Int) (req : AdhocChoreCreate) : Chore :=
  ⟨new_chore_id, req.name, req.description, "weekly", none, none, none, false, true⟩

/-- app/routers/chores.py create_adhoc_chore, run inside a session: user
lookup, adhoc chore reuse-or-create (the new chore is only flushed), future
date validation, duplicate check of (chore, week_start, completion_date
day) against the visible completions, and finally the completion insert. -/
def create_adhoc_core (db : DB) (today new_chore_id new_completion_id : Int)
    (req : AdhocChoreCreate) : Session × Except Err Completion :=
  let s0 : Session := ⟨db, [], []⟩
  match db.users.find? (fun u => u.id == req.user_id) with
  | none => (s0, .error .NotFound)
  | some _ =>
    let chore_id :=
      match adhocLookup db req.name with
      | some ch => ch.id
      | none => new_chore_id
    let s1 : Session :=
      match adhocLookup db req.name with
      | some _ => s0
      | none => { s0 with pending_chores := [newAdhocChore new_chore_id req] }
    if req.completion_date > today then (s1, .error .InvalidArgument)
    else if (s1.stored.completions ++ s1.pending_completions).any (fun c =>
        c.chore_id == chore_id && c.week_start == req.week_start &&
          c.completed_day == req.completion_date) then
      (s1, .error .Conflict)
    else
      let nc : Completion :=
        ⟨new_completion_id, chore_id, req.user_id, today, req.week_start, req.notes⟩
      ({ s1 with pending_completions := [nc] }, .ok nc)

/-- POST /api/chores/adhoc end to end: the handler commits on success; an
error tears the session down without a commit, returning the stored state
unchanged together with the error. -/
def create_adhoc_chore (db : DB) (today new_chore_id new_completion_id : Int)
    (req : AdhocChoreCreate) : DB × Except Err Completion :=
  match create_adhoc_core db today new_chore_id new_completion_id req with
  | (s, .ok c) => (s.commit, .ok c)
  | (s, .error e) => (s.rollback, .error e)

/-- Number of admin users, active or not: the count taken by delete_user
(db.query(User).filter(User.is_admin == True).count()). -/
def adminCount (db : DB) : Nat := (db.users.filter (fun u => u.is_admin)).length

/-- app/routers/users.py delete_user: 404 when absent, last-admin guard on
the admin count (the is_active flag is not consulted), then deletion with
the cascade of the SQLAlchemy relationships: the chores assigned to the
user go, the completions by the user go, and the completions of the
deleted chores go. -/
def delete_user (db : DB) (user_id : Int) : Except Err DB :=
  match db.users.find? (fun u => u.id == user_id) with
  | none => .error .NotFound
  | some u =>
    if u.is_admin ∧ adminCount db ≤ 1 then .error .InvariantViolation
    else
      let deletedChoreIds :=
        (db.chores.filter (fun c => c.assigned_user_id == some user_id)).map (fun c => c.id)
      .ok { users := db.users.filter (fun v => !(v.id == user_id)),
            chores := db.chores.filter (fun c => !(c.assigned_user_id == some user_id)),
            completions := db.completions.filter (fun c =>
              !(c.user_id == user_id) && !(deletedChoreIds.contains c.chore_id)) }

/-- Request body of POST /api/chores (app/schemas/chore.py ChoreCreate). -/
structure ChoreCreate where
  name : String
  description : Option String
  frequency : String
  day_of_week : Option Int
  day_of_week_2 : Option Int
  assigned_user_id : Option Int
  is_active : Bool
  is_adhoc : Bool
  deriving DecidableEq

/-- app/routers/chores.py create_chore: the assigned user is validated only
when the value is truthy in Python, that is, present and nonzero. -/
def create_chore (db : DB) (new_id : Int) (req : ChoreCreate) : Except Err (DB × Chore) :=
  let missing : Bool :=
    match req.assigned_user_id with
    | some v => v != 0 && (db.users.find? (fun u => u.id == v)).isNone
    | none => false
  if missing then .error .NotFound
  else
    let ch : Chore := ⟨new_id, req.name, req.description, req.frequency, req.day_of_week,
      req.day_of_week_2, req.assigned_user_id, req.is_active, req.is_adhoc⟩
    .ok ({ db with chores := db.chores ++ [ch] }, ch)

/-- Request body of PUT /api/chores/id.  A none field is one that is not
being updated (the source distinguishes unset fields from explicit nulls
via exclude_unset; that distinction does not affect the validation logic
modelled here). -/
structure ChoreUpdate where
  name : Option String
  description : Option String
  frequency : Option String
  day_of_week : Option Int
  day_of_week_2 : Option Int
  assigned_user_id : Option Int
  is_active : Option Bool
  is_adhoc : Option Bool
  deriving DecidableEq

/-- Field-wise setattr of the supplied update fields. -/
def applyChoreUpdate (ch : Chore) (req : ChoreUpdate) : Chore :=
  { ch with
    name := req.name.getD ch.name,
    description := match req.description with | some d => some d | none => ch.description,
    frequency := req.frequency.getD ch.frequency,
    day_of_week := match req.day_of_week with | some v => some v | none => ch.day_of_week,
    day_of_week_2 := match req.day_of_week_2 with | some v => some v | none => ch.day_of_week_2,
    assigned_user_id := match req.assigned_user_id with
      | some v => some v
      | none => ch.assigned_user_id,
    is_active := req.is_active.getD ch.is_active,
    is_adhoc := req.is_adhoc.getD ch.is_adhoc }

/-- app/routers/chores.py update_chore: 404 when the chore is absent; the
assigned user is validated for every value that is not None, including 0. -/
def update_chore (db : DB) (chore_id : Int) (req : ChoreUpdate) : Except Err (DB × Chore) :=
  match db.chores.find? (fun c => c.id == chore_id) with
  | none => .error .NotFound
  | some ch =>
    match req.assigned_user_id with
    | some v =>
      if (db.users.find? (fun u => u.id == v)).isNone then .error .NotFound
      else
        let ch2 := applyChoreUpdate ch req
        .ok ({ db with chores := db.chores.map (fun c =>
          if c.id == chore_id then applyChoreUpdate c req else c) }, ch2)
    | none =>
      let ch2 := applyChoreUpdate ch req
      .ok ({ db with chores := db.chores.map (fun c =>
        if c.id == chore_id then applyChoreUpdate c req else c) }, ch2)

/-- True exactly when a request outcome is a success. -/
def exceptOk : Except Err α → Bool
  | .ok _ => true
  | .error _ => false

/-- Stored state after a completion-create request: the committed state on
success, the unchanged state on an error. -/
def dbAfterCompletion (r : Except Err (DB × Completion)) (db : DB) : DB :=
  match r with
  | .ok (db2, _) => db2
  | .error _ => db

/-- Stored state after a user-delete request. -/
def dbAfterDelete (r : Except Err DB) (db : DB) : DB :=
  match r with
  | .ok db2 => db2
  | .error _ => db

/-- Calendar day of the completed_at of a successfully created
completion. -/
def okCompletionDay (r : Except Err (DB × Completion)) : Option Int :=
  match r with
  | .ok (_, c) => some c.completed_day
  | .error _ => none

/-- Store for the C1 claims: one admin user, one active weekly chore
assigned to the user, and one completion of that chore for week_start 1
whose completed_at fell on day 1 (the Monday). -/
def dbC1 : DB :=
  { users := [⟨1, "alice", none, true, true⟩],
    chores := [⟨1, "dishes", none, "weekly", none, none, some 1, true, false⟩],
    completions := [⟨1, 1, 1, 1, 1, none⟩] }

/-- Request for the C1 claims: complete chore 1 again for the same
week_start 1, with completion_date day 2 (Tuesday of the same week). -/
def reqC1 : CompletionCreate := ⟨1, 1, some 1, some 2, none⟩

/-- Store for the C5 claims: one admin user, one active weekly chore, no
completions. -/
def dbC5 : DB :=
  { users := [⟨1, "alice", none, true, true⟩],
    chores := [⟨1, "dishes", none, "weekly", none, none, some 1, true, false⟩],
    completions := [] }

/-- Request for the C5 claims: complete chore 1 with explicit
completion_date day 1, submitted on day 2. -/
def reqC5 : CompletionCreate := ⟨1, 1, some 1, some 1, none⟩

/-- The completion row stored by the C5 request: its completed_at day is
the server day 2, not the supplied completion_date 1. -/
def c5NewCompletion : Completion := ⟨9, 1, 1, 2, 1, none⟩

/-- The store after the C5 request. -/
def c5DbAfter : DB :=
  { users := dbC5.users, chores := dbC5.chores, completions := [c5NewCompletion] }

/-- Store for the C7 and C9 witnesses: one user and one active weekly
chore. -/
def dbC7 : DB :=
  { users := [⟨1, "alice", none, true, true⟩],
    chores := [⟨1, "dishes", none, "weekly", none, none, some 1, true, false⟩],
    completions := [] }

/-- Future-dated completion request for the C7 witness: completion_date
day 3 submitted on day 2. -/
def reqC7 : CompletionCreate := ⟨1, 1, some 1, some 3, none⟩

/-- Future-dated adhoc request for the C7 witness. -/
def reqC7adhoc : AdhocChoreCreate := ⟨"wash windows", none, 1, 3, 1, none⟩

/-- Request for the C9 witness: no completion_date supplied. -/
def reqC9 : CompletionCreate := ⟨1, 1, some 1, none, none⟩

/-- Store for the C4 witness: a single user and nothing else. -/
def dbC4 : DB := { users := [⟨1, "alice", none, true, true⟩], chores := [], completions := [] }

/-- Failing adhoc request for the C4 witness: completion_date day 2 is in
the future of the server day 1. -/
def reqC4 : AdhocChoreCreate := ⟨"wash windows", none, 1, 2, 1, none⟩

/-- Store for the C2 counterexample: an active admin and an inactive
admin. -/
def dbC2 : DB :=
  { users := [⟨1, "alice", none, true, true⟩, ⟨2, "bob", none, true, false⟩],
    chores := [], completions := [] }

/-- Store for the C2 witness: two active admins, a chore assigned to the
first, and a completion by the first. -/
def dbC2w : DB :=
  { users := [⟨1, "alice", none, true, true⟩, ⟨2, "bob", none, true, true⟩],
    chores := [⟨5, "dishes", none, "weekly", none, none, some 1, true, false⟩],
    completions := [⟨9, 5, 1, 1, 1, none⟩] }

/-- The user deleted in the C2 witness. -/
def userC2w : User := ⟨1, "alice", none, true, true⟩

/-- The store after the C2 witness delete: the other admin survives and the
cascade removed the chore and the completion. -/
def dbC2wAfter : DB :=
  { users := [⟨2, "bob", none, true, true⟩], chores := [], completions := [] }

/-- Store for the C6 witness: a single user and no chores. -/
def dbC6 : DB := { users := [⟨1, "alice", none, true, true⟩], chores := [], completions := [] }

/-- First adhoc request of the C6 witness, on day 1. -/
def reqC6a : AdhocChoreCreate := ⟨"wash windows", none, 1, 1, 1, none⟩

/-- Second adhoc request of the C6 witness: same name, completed on day 2
of the same week. -/
def reqC6b : AdhocChoreCreate := ⟨"wash windows", none, 1, 2, 1, none⟩

/-- The adhoc chore the first C6 call creates. -/
def choreC6 : Chore := newAdhocChore 10 reqC6a

/-- The completion stored by the first C6 call. -/
def compC6a : Completion := ⟨20, 10, 1, 1, 1, none⟩

/-- The store after the first C6 call. -/
def dbC6after1 : DB :=
  { users := dbC6.users, chores := [choreC6], completions := [compC6a] }

/-- The completion stored by the second C6 call: it references the same
chore id 10. -/
def compC6b : Completion := ⟨21, 10, 1, 2, 1, none⟩

/-- The store after the second C6 call. -/
def dbC6after2 : DB :=
  { users := dbC6.users, chores := [choreC6], completions := [compC6a, compC6b] }

/-- Store for the C10 witness: one user with id 1 (none with id 0) and one
chore. -/
def dbC10 : DB :=
  { users := [⟨1, "alice", none, true, true⟩],
    chores := [⟨3, "dishes", none, "weekly", none, none, some 1, true, false⟩],
    completions := [] }

/-- Chore-create request of the C10 witness: assigned_user_id is 0, which
is falsy in Python. -/
def reqC10create : ChoreCreate := ⟨"mop", none, "weekly", none, none, some 0, true, false⟩

/-- Chore-update request of the C10 witness: sets assigned_user_id to 0. -/
def reqC10update : ChoreUpdate := ⟨none, none, none, none, none, some 0, none, none⟩

/-- Store for the C3 witness: two active chores of different frequencies,
an inactive adhoc chore, and one completion each for the weekly chore and
the adhoc chore in the week starting day 8. -/
def dbC3 : DB :=
  { users := [⟨1, "alice", none, true, true⟩],
    chores := [⟨1, "Trash", none, "weekly", none, none, some 1, true, false⟩,
               ⟨2, "dishes", none, "daily", none, none, some 1, true, false⟩,
               ⟨3, "attic", none, "weekly", none, none, none, false, true⟩],
    completions := [⟨1, 1, 1, 9, 8, none⟩, ⟨2, 3, 1, 10, 8, none⟩] }

/-- The weekly view of a successful response, with a fallback for the
error case. -/
def weeklyOr (r : Except Err WeeklyResult) (d : WeeklyResult) : WeeklyResult :=
  match r with
  | .ok v => v
  | .error _ => d

/-- The weekly view the C3 witness store produces for the week starting
day 8. -/
def weeklyC3 : WeeklyResult :=
  weeklyOr (get_weekly_chores dbC3 9 (some 8) none none) ⟨0, 0, 0, []⟩

theorem lexLe_total (a b : List Char) : (lexLe a b || lexLe b a) = true := by
  induction a generalizing b with
  | nil => simp [lexLe]
  | cons x xs ih =>
    cases b with
    | nil => simp [lexLe]
    | cons y ys =>
      by_cases hxy : x < y
      · simp [lexLe, hxy]
      · by_cases heq : x = y
        · subst heq
          simpa [lexLe, lt_irrefl] using ih ys
        · have hyx : y < x := by
            rcases lt_trichotomy x y with h | h | h <;> simp_all
          have hyx2 : ¬ y = x := fun h => heq h.symm
          simp [lexLe, hxy, heq, hyx, hyx2]

theorem lexLe_trans (a b c : List Char) (h1 : lexLe a b = true) (h2 : lexLe b c = true) :
    lexLe a c = true := by
  induction a generalizing b c with
  | nil => simp [lexLe]
  | cons x xs ih =>
    cases b with
    | nil => simp [lexLe] at h1
    | cons y ys =>
      cases c with
      | nil => simp [lexLe] at h2
      | cons z zs =>
        by_cases hxy : x < y
        · by_cases hyz : y < z
          · simp [lexLe, lt_trans hxy hyz]
          · by_cases hyz2 : y = z
            · subst hyz2
              simp [lexLe, hxy]
            · simp [lexLe, hyz, hyz2] at h2
        · by_cases hxy2 : x = y
          · subst hxy2
            by_cases hxz : x < z
            · simp [lexLe, hxz]
            · by_cases hxz2 : x = z
              · subst hxz2
                simp only [lexLe, lt_irrefl, if_neg (lt_irrefl x), if_pos rfl] at h1 h2 ⊢
                exact ih ys zs h1 h2
              · simp [lexLe, hxz, hxz2] at h2
          · simp [lexLe, hxy, hxy2] at h1

theorem nameLe_total (a b : Chore) : (nameLe a b || nameLe b a) = true :=
  lexLe_total (lowerChars a.name) (lowerChars b.name)

theorem nameLe_trans (a b c : Chore) (h1 : nameLe a b = true) (h2 : nameLe b c = true) :
    nameLe a c = true :=
  lexLe_trans (lowerChars a.name) (lowerChars b.name) (lowerChars c.name) h1 h2

theorem mem_orderedInsertB (le : α → α → Bool) (a x : α) (l : List α) :
    x ∈ orderedInsertB le a l ↔ x = a ∨ x ∈ l := by
  induction l with
  | nil => simp [orderedInsertB]
  | cons b t ih =>
    by_cases h : le a b = true
    · simp [orderedInsertB, h, List.mem_cons]
    · simp only [orderedInsertB, if_neg h, List.mem_cons, ih]
      tauto

theorem pairwise_orderedInsertB (le : α → α → Bool)
    (total : ∀ a b, (le a b || le b a) = true)
    (htrans : ∀ a b c, le a b = true → le b c = true → le a c = true)
    (a : α) (l : List α) (h : l.Pairwise (fun x y => le x y = true)) :
    (orderedInsertB le a l).Pairwise (fun x y => le x y = true) := by
  induction l with
  | nil => simp [orderedInsertB]
  | cons b t ih =>
    rcases List.pairwise_cons.mp h with ⟨hb, ht⟩
    by_cases hab : le a b = true
    · simp only [orderedInsertB, if_pos hab]
      refine List.pairwise_cons.mpr ⟨?_, h⟩
      intro x hx
      rcases List.mem_cons.mp hx with rfl | hx2
      · exact hab
      · exact htrans a b x hab (hb x hx2)
    · simp only [orderedInsertB, if_neg hab]
      refine List.pairwise_cons.mpr ⟨?_, ih ht⟩
      intro x hx
      rcases (mem_orderedInsertB le a x t).mp hx with rfl | hx2
      · have := total x b
        simpa [hab] using this
      · exact hb x hx2

theorem pairwise_insertionSortB (le : α → α → Bool)
    (total : ∀ a b, (le a b || le b a) = true)
    (htrans : ∀ a b c, le a b = true → le b c = true → le a c = true)
    (l : List α) : (insertionSortB le l).Pairwise (fun x y => le x y = true) := by
  induction l with
  | nil => simp [insertionSortB]
  | cons a t ih => exact pairwise_orderedInsertB le total htrans a _ ih

/-- Claim C8: get_week_start is idempotent, its result is always a Monday
(weekday 0, where weekday 0 is Monday), and it equals the input date minus
its weekday.  The embedding is a total function on all dates, matching the
pure, total, failure-free source helper. -/
theorem claim_C8_week_start_idempotent_monday (d : Int) :
    get_week_start (get_week_start d) = get_week_start d ∧
    pyWeekday (get_week_start d) = 0 ∧
    get_week_start d = d - pyWeekday d := by
  refine ⟨?_, ?_, rfl⟩ <;>
  · unfold get_week_start pyWeekday
    omega

/-- Claim C1 as stated is false on the code: chore 1 has frequency weekly
and already has a completion for week_start 1, yet a second
completion-create request for the same week_start, submitted on a
different day, succeeds rather than failing Conflict.  The duplicate
check of mark_chore_complete never consults the frequency. -/
theorem claim_C1_counterexample :
    (dbC1.chores.find? (fun c => c.id == 1)).map (fun c => c.frequency) = some "weekly" ∧
    dbC1.completions.any (fun c => c.chore_id == 1 && c.week_start == 1) = true ∧
    reqC1.week_start = some 1 ∧
    exceptOk (mark_chore_complete dbC1 2 2 reqC1) = true := by
  decide

/-- Claim C1 amended: for every existing chore (of any frequency, adhoc or
not) and existing user, a completion-create request that supplies a
non-future completion_date fails Conflict exactly when a completion
already exists for the same (chore_id, week_start) whose completed_at
falls on the current server day, and succeeds otherwise.  (When
completion_date is omitted no duplicate check runs at all; that is
claim C9.) -/
theorem claim_C1_day_based_duplicate_check
    (db : DB) (today new_id : Int) (req : CompletionCreate) (d : Int)
    (hch : (db.chores.find? (fun c => c.id == req.chore_id)).isSome = true)
    (hu : (db.users.find? (fun u => u.id == req.user_id)).isSome = true)
    (hd : req.completion_date = some d) (hpast : d ≤ today) :
    (mark_chore_complete db today new_id req = .error .Conflict ↔
      hasDayDuplicate db req.chore_id (req.week_start.getD (get_week_start today)) today
        = true) ∧
    (hasDayDuplicate db req.chore_id (req.week_start.getD (get_week_start today)) today
        = false →
      exceptOk (mark_chore_complete db today new_id req) = true) := by
  rcases Option.isSome_iff_exists.mp hch with ⟨ch, hch2⟩
  rcases Option.isSome_iff_exists.mp hu with ⟨u, hu2⟩
  have hnot : ¬ d > today := by omega
  simp only [mark_chore_complete, hch2, hu2, hd, if_neg hnot]
  by_cases hdup :
    hasDayDuplicate db req.chore_id (req.week_start.getD (get_week_start today)) today = true
  · simp [hdup]
  · simp [hdup, exceptOk]

/-- Witness for the amended C1 theorem at a concrete input. -/
theorem claim_C1_day_based_duplicate_check_witness :
    (dbC1.chores.find? (fun c => c.id == reqC1.chore_id)).isSome = true ∧
    (dbC1.users.find? (fun u => u.id == reqC1.user_id)).isSome = true ∧
    reqC1.completion_date = some 2 ∧ (2 : Int) ≤ 2 ∧
    ((mark_chore_complete dbC1 2 2 reqC1 = .error .Conflict ↔
      hasDayDuplicate dbC1 reqC1.chore_id (reqC1.week_start.getD (get_week_start 2)) 2
        = true) ∧
     (hasDayDuplicate dbC1 reqC1.chore_id (reqC1.week_start.getD (get_week_start 2)) 2
        = false →
      exceptOk (mark_chore_complete dbC1 2 2 reqC1) = true)) :=
  ⟨by decide, by decide, by decide, by decide,
    claim_C1_day_based_duplicate_check dbC1 2 2 reqC1 2 (by decide) (by decide)
      (by decide) (by decide)⟩

/-- Claim C5 as stated is false on the code: a request that supplies the
non-future completion_date day 1 on server day 2 succeeds, but the stored
completed_at falls on day 2 (the current timestamp the persistence layer
fills in), not on the supplied completion_date day 1 at any time of day. -/
theorem claim_C5_counterexample :
    reqC5.completion_date = some 1 ∧
    okCompletionDay (mark_chore_complete dbC5 2 9 reqC5) = some 2 ∧
    ¬ ((2 : Int) = 1) := by
  decide

/-- Claim C5 amended: on every successful completion create, with or
without a supplied completion_date, the stored completed_at is the current
timestamp of the persistence layer — its calendar day is the current
server day — and the new row is appended to the store. -/
theorem claim_C5_completed_at_is_server_now
    (db : DB) (today nid : Int) (req : CompletionCreate) (db2 : DB) (c : Completion)
    (h : mark_chore_complete db today nid req = .ok (db2, c)) :
    c.completed_day = today ∧ db2.completions = db.completions ++ [c] := by
  simp only [mark_chore_complete] at h
  split at h
  · simp at h
  · split at h
    · simp at h
    · split at h
      · split at h
        · simp at h
        · split at h
          · simp at h
          · simp only [Except.ok.injEq, Prod.mk.injEq] at h
            obtain ⟨h1, h2⟩ := h
            subst h1
            subst h2
            exact ⟨rfl, rfl⟩
      · simp only [Except.ok.injEq, Prod.mk.injEq] at h
        obtain ⟨h1, h2⟩ := h
        subst h1
        subst h2
        exact ⟨rfl, rfl⟩

/-- Witness for the amended C5 theorem at a concrete input. -/
theorem claim_C5_completed_at_is_server_now_witness :
    mark_chore_complete dbC5 2 9 reqC5 = .ok (c5DbAfter, c5NewCompletion) ∧
    c5NewCompletion.completed_day = 2 ∧
    c5DbAfter.completions = dbC5.completions ++ [c5NewCompletion] :=
  ⟨by rfl,
    (claim_C5_completed_at_is_server_now dbC5 2 9 reqC5 c5DbAfter c5NewCompletion (by rfl)).1,
    (claim_C5_completed_at_is_server_now dbC5 2 9 reqC5 c5DbAfter c5NewCompletion (by rfl)).2⟩

/-- Claim C7: for both completion create (with existing chore and user) and
the adhoc create-and-complete (with existing user), a request whose
supplied completion_date is after today in the configured time zone fails
InvalidArgument. -/
theorem claim_C7_future_completion_date_rejected :
    (∀ (db : DB) (today nid : Int) (req : CompletionCreate) (d : Int),
      (db.chores.find? (fun c => c.id == req.chore_id)).isSome = true →
      (db.users.find? (fun u => u.id == req.user_id)).isSome = true →
      req.completion_date = some d → today < d →
      mark_chore_complete db today nid req = .error .InvalidArgument) ∧
    (∀ (db : DB) (today a b : Int) (req : AdhocChoreCreate),
      (db.users.find? (fun u => u.id == req.user_id)).isSome = true →
      today < req.completion_date →
      (create_adhoc_chore db today a b req).2 = .error .InvalidArgument) := by
  constructor
  · intro db today nid req d hch hu hd hfut
    rcases Option.isSome_iff_exists.mp hch with ⟨ch, hch2⟩
    rcases Option.isSome_iff_exists.mp hu with ⟨u, hu2⟩
    simp [mark_chore_complete, hch2, hu2, hd, hfut]
  · intro db today a b req hu hfut
    rcases Option.isSome_iff_exists.mp hu with ⟨u, hu2⟩
    simp [create_adhoc_chore, create_adhoc_core, hu2, gt_iff_lt, hfut]

/-- Witness for the C7 theorem at concrete inputs for both endpoints. -/
theorem claim_C7_future_completion_date_rejected_witness :
    ((dbC7.chores.find? (fun c => c.id == reqC7.chore_id)).isSome = true ∧
     (dbC7.users.find? (fun u => u.id == reqC7.user_id)).isSome = true ∧
     reqC7.completion_date = some 3 ∧ (2 : Int) < 3 ∧
     mark_chore_complete dbC7 2 5 reqC7 = .error .InvalidArgument) ∧
    ((dbC7.users.find? (fun u => u.id == reqC7adhoc.user_id)).isSome = true ∧
     (2 : Int) < reqC7adhoc.completion_date ∧
     (create_adhoc_chore dbC7 2 10 20 reqC7adhoc).2 = .error .InvalidArgument) :=
  ⟨⟨by decide, by decide, by decide, by decide,
      claim_C7_future_completion_date_rejected.1 dbC7 2 5 reqC7 3 (by decide) (by decide)
        (by decide) (by decide)⟩,
   ⟨by decide, by decide,
      claim_C7_future_completion_date_rejected.2 dbC7 2 10 20 reqC7adhoc (by decide)
        (by decide)⟩⟩

/-- Claim C9: when a completion-create request omits completion_date, the
duplicate check never runs (the guard value is the unflushed completed_at,
None before the store default applies), so two identical requests for the
same chore and week_start both succeed, whatever the frequency of the
chore. -/
theorem claim_C9_no_duplicate_check_without_date
    (db : DB) (today nid1 nid2 : Int) (req : CompletionCreate)
    (hch : (db.chores.find? (fun c => c.id == req.chore_id)).isSome = true)
    (hu : (db.users.find? (fun u => u.id == req.user_id)).isSome = true)
    (hnd : req.completion_date = none) :
    exceptOk (mark_chore_complete db today nid1 req) = true ∧
    exceptOk (mark_chore_complete
      (dbAfterCompletion (mark_chore_complete db today nid1 req) db) today nid2 req)
      = true := by
  rcases Option.isSome_iff_exists.mp hch with ⟨ch, hch2⟩
  rcases Option.isSome_iff_exists.mp hu with ⟨u, hu2⟩
  refine ⟨by simp [mark_chore_complete, hch2, hu2, hnd, exceptOk], ?_⟩
  simp [mark_chore_complete, dbAfterCompletion, hch2, hu2, hnd, exceptOk]

/-- Witness for the C9 theorem at a concrete input. -/
theorem claim_C9_no_duplicate_check_without_date_witness :
    (dbC7.chores.find? (fun c => c.id == reqC9.chore_id)).isSome = true ∧
    (dbC7.users.find? (fun u => u.id == reqC9.user_id)).isSome = true ∧
    reqC9.completion_date = none ∧
    (exceptOk (mark_chore_complete dbC7 2 1 reqC9) = true ∧
     exceptOk (mark_chore_complete
       (dbAfterCompletion (mark_chore_complete dbC7 2 1 reqC9) dbC7) 2 2 reqC9) = true) :=
  ⟨by decide, by decide, by decide,
    claim_C9_no_duplicate_check_without_date dbC7 2 1 2 reqC9 (by decide) (by decide)
      (by decide)⟩

theorem create_adhoc_core_stored (db : DB) (today a b : Int) (req : AdhocChoreCreate) :
    (create_adhoc_core db today a b req).1.stored = db := by
  unfold create_adhoc_core
  cases hu : db.users.find? (fun u => u.id == req.user_id) with
  | none => rfl
  | some u =>
    dsimp only
    cases hlk : adhocLookup db req.name <;> dsimp only <;> split <;> first | rfl | (split <;> rfl)

/-- Claim C4: create_adhoc_and_complete is atomic — whenever it returns an
error (unknown user, future completion_date, or a same-day duplicate), the
stored state is unchanged; in particular an adhoc chore flushed earlier in
the same call is not persisted. -/
theorem claim_C4_adhoc_atomic_on_error
    (db : DB) (today a b : Int) (req : AdhocChoreCreate) (db2 : DB) (e : Err)
    (h : create_adhoc_chore db today a b req = (db2, .error e)) : db2 = db := by
  have hst := create_adhoc_core_stored db today a b req
  unfold create_adhoc_chore at h
  cases hcore : create_adhoc_core db today a b req with
  | mk s r =>
    rw [hcore] at h hst
    cases r with
    | ok c => simp at h
    | error e2 =>
      simp only [Session.rollback] at h
      obtain ⟨h1, h2⟩ := Prod.mk.injEq .. ▸ h
      exact h1 ▸ hst

/-- Witness for the C4 theorem at a concrete failing input. -/
theorem claim_C4_adhoc_atomic_on_error_witness :
    create_adhoc_chore dbC4 1 10 20 reqC4 = (dbC4, .error .InvalidArgument) ∧ dbC4 = dbC4 :=
  ⟨by rfl, claim_C4_adhoc_atomic_on_error dbC4 1 10 20 reqC4 dbC4 .InvalidArgument (by rfl)⟩

/-- Claim C2 as stated is false on the code: the last-admin guard counts
every admin regardless of the is_active flag, so deleting the only active
admin succeeds when an inactive admin exists, leaving no active admin. -/
theorem claim_C2_counterexample :
    (dbC2.users.filter (fun u => u.is_admin && u.is_active)).length = 1 ∧
    exceptOk (delete_user dbC2 1) = true ∧
    ((dbAfterDelete (delete_user dbC2 1) dbC2).users.filter
      (fun u => u.is_admin && u.is_active)).length = 0 := by
  decide

/-- Claim C2 amended: deleting a user fails NotFound when the id is absent
and InvariantViolation when the target is an admin and the total admin
count (active or not) is at most 1; after a successful delete of an admin
(with ids unique, as the primary key guarantees) at least one admin user —
not necessarily an active one — remains; a successful delete cascades: no
chore assigned to the user and no completion by the user survives. -/
theorem claim_C2_delete_user_guard_and_cascade (db : DB) (uid : Int) :
    (db.users.find? (fun u => u.id == uid) = none →
      delete_user db uid = .error .NotFound) ∧
    (∀ u, db.users.find? (fun v => v.id == uid) = some u → u.is_admin = true →
      adminCount db ≤ 1 → delete_user db uid = .error .InvariantViolation) ∧
    (∀ u db2, db.users.find? (fun v => v.id == uid) = some u → u.is_admin = true →
      (db.users.filter (fun v => v.id == uid)).length ≤ 1 →
      delete_user db uid = .ok db2 → 1 ≤ adminCount db2) ∧
    (∀ db2, delete_user db uid = .ok db2 →
      (∀ c ∈ db2.chores, ¬ c.assigned_user_id = some uid) ∧
      (∀ c ∈ db2.completions, ¬ c.user_id = uid)) := by
  refine ⟨?_, ?_, ?_, ?_⟩
  · intro hn
    simp [delete_user, hn]
  · intro u hf hadm hcnt
    simp [delete_user, hf, hadm, hcnt]
  · intro u db2 hf hadm hkey hok
    simp only [delete_user, hf] at hok
    split at hok
    · simp at hok
    · rename_i hguard
      have hcnt2 : 2 ≤ adminCount db := by
        rcases Nat.lt_or_ge (adminCount db) 2 with hlt | hge
        · exact absurd ⟨hadm, by omega⟩ hguard
        · exact hge
      simp only [Except.ok.injEq] at hok
      subst hok
      unfold adminCount at hcnt2 ⊢
      dsimp only
      have hsplit : (db.users.filter (fun v => v.is_admin)).length =
          ((db.users.filter (fun v => v.is_admin)).filter (fun v => v.id == uid)).length +
          ((db.users.filter (fun v => v.is_admin)).filter
            (fun v => !(v.id == uid))).length :=
        List.length_eq_length_filter_add _
      have hsub : ((db.users.filter (fun v => v.is_admin)).filter
          (fun v => v.id == uid)).length ≤
          (db.users.filter (fun v => v.id == uid)).length :=
        ((List.filter_sublist db.users).filter _).length_le
      have hconn : ((db.users.filter (fun v => !(v.id == uid))).filter
          (fun u2 => u2.is_admin)).length =
          ((db.users.filter (fun v => v.is_admin)).filter
            (fun v => !(v.id == uid))).length := by
        rw [List.filter_filter, List.filter_filter]
        exact congrArg List.length (List.filter_congr (fun a _ => Bool.and_comm _ _))
      rw [hconn]
      omega
  · intro db2 hok
    simp only [delete_user] at hok
    split at hok
    · simp at hok
    · split at hok
      · simp at hok
      · simp only [Except.ok.injEq] at hok
        subst hok
        constructor
        · intro c hc
          have hmem := (List.mem_filter.mp hc).2
          simpa using hmem
        · intro c hc
          have hmem := (List.mem_filter.mp hc).2
          simp at hmem
          exact hmem.1

/-- Witness for the amended C2 theorem at a concrete input: deleting admin
1 of two admins succeeds and an admin remains. -/
theorem claim_C2_delete_user_guard_and_cascade_witness :
    dbC2w.users.find? (fun v => v.id == 1) = some userC2w ∧
    userC2w.is_admin = true ∧
    (dbC2w.users.filter (fun v => v.id == 1)).length ≤ 1 ∧
    delete_user dbC2w 1 = .ok dbC2wAfter ∧
    1 ≤ adminCount dbC2wAfter :=
  ⟨by decide, by decide, by decide, by rfl,
    (claim_C2_delete_user_guard_and_cascade dbC2w 1).2.2.1 userC2w dbC2wAfter (by decide)
      (by decide) (by decide) (by rfl)⟩

theorem create_adhoc_ok_inv (db : DB) (t a b : Int) (req : AdhocChoreCreate)
    (db1 : DB) (c : Completion)
    (h : create_adhoc_chore db t a b req = (db1, .ok c)) :
    db1.users = db.users ∧
    ((adhocLookup db req.name = none ∧
        db1.chores = db.chores ++ [newAdhocChore a req] ∧ c.chore_id = a) ∨
      (∃ ch, adhocLookup db req.name = some ch ∧ db1.chores = db.chores ∧
        c.chore_id = ch.id)) := by
  unfold create_adhoc_chore create_adhoc_core at h
  cases hu : db.users.find? (fun u => u.id == req.user_id) with
  | none => rw [hu] at h; simp at h
  | some u =>
    rw [hu] at h
    dsimp only at h
    cases hlk : adhocLookup db req.name with
    | none =>
      rw [hlk] at h
      dsimp only at h
      split at h
      · rename_i xx s2 c2 heq
        split at heq
        · simp at heq
        · split at heq
          · simp at heq
          · simp only [Prod.mk.injEq, Except.ok.injEq] at heq h
            obtain ⟨hs2, hc2⟩ := heq
            subst hs2
            subst hc2
            obtain ⟨hdb1, hcc⟩ := h
            subst hdb1
            subst hcc
            exact ⟨rfl, Or.inl ⟨rfl, rfl, rfl⟩⟩
      · simp at h
    | some ch =>
      rw [hlk] at h
      dsimp only at h
      split at h
      · rename_i xx s2 c2 heq
        split at heq
        · simp at heq
        · split at heq
          · simp at heq
          · simp only [Prod.mk.injEq, Except.ok.injEq] at heq h
            obtain ⟨hs2, hc2⟩ := heq
            subst hs2
            subst hc2
            obtain ⟨hdb1, hcc⟩ := h
            subst hdb1
            subst hcc
            refine ⟨rfl, Or.inr ⟨ch, rfl, by simp [Session.commit], rfl⟩⟩
      · simp at h

/-- Claim C6: create_adhoc_and_complete creates, when no adhoc chore with
the requested name exists, a new chore that is inactive, flagged adhoc,
unassigned and of the default weekly frequency; and two consecutive
successful calls with the same name reference the same chore id. -/
theorem claim_C6_adhoc_chore_reuse :
    (∀ (db : DB) (t a b : Int) (req : AdhocChoreCreate) (db1 : DB) (c1 : Completion),
      adhocLookup db req.name = none →
      create_adhoc_chore db t a b req = (db1, .ok c1) →
      db1.chores = db.chores ++ [newAdhocChore a req] ∧ c1.chore_id = a ∧
      (newAdhocChore a req).is_active = false ∧ (newAdhocChore a req).is_adhoc = true ∧
      (newAdhocChore a req).assigned_user_id = none ∧
      (newAdhocChore a req).frequency = "weekly") ∧
    (∀ (db : DB) (t1 t2 a1 b1 a2 b2 : Int) (req1 req2 : AdhocChoreCreate)
      (db1 db2 : DB) (c1 c2 : Completion),
      req2.name = req1.name →
      create_adhoc_chore db t1 a1 b1 req1 = (db1, .ok c1) →
      create_adhoc_chore db1 t2 a2 b2 req2 = (db2, .ok c2) →
      c2.chore_id = c1.chore_id) := by
  constructor
  · intro db t a b req db1 c1 hlk h
    rcases create_adhoc_ok_inv db t a b req db1 c1 h with ⟨-, hcase⟩
    rcases hcase with ⟨-, hch, hc⟩ | ⟨ch, hsome, -, -⟩
    · exact ⟨hch, hc, rfl, rfl, rfl, rfl⟩
    · simp [hlk] at hsome
  · intro db t1 t2 a1 b1 a2 b2 req1 req2 db1 db2 c1 c2 hname h1 h2
    rcases create_adhoc_ok_inv db t1 a1 b1 req1 db1 c1 h1 with ⟨-, hcase1⟩
    rcases create_adhoc_ok_inv db1 t2 a2 b2 req2 db2 c2 h2 with ⟨-, hcase2⟩
    rcases hcase1 with ⟨hlk1, hch1, hc1⟩ | ⟨ch, hlk1, hch1, hc1⟩
    · have hlk2 : adhocLookup db1 req2.name = some (newAdhocChore a1 req1) := by
        unfold adhocLookup at hlk1 ⊢
        rw [hch1, List.find?_append, hname, hlk1]
        simp [newAdhocChore]
      rcases hcase2 with ⟨hlk2b, -, -⟩ | ⟨ch2, hlk2b, -, hc2⟩
      · rw [hlk2] at hlk2b; cases hlk2b
      · rw [hlk2] at hlk2b
        injection hlk2b with he
        rw [hc2, ← he, hc1]
        rfl
    · have hlk2 : adhocLookup db1 req2.name = some ch := by
        unfold adhocLookup at hlk1 ⊢
        rw [hch1, hname]
        exact hlk1
      rcases hcase2 with ⟨hlk2b, -, -⟩ | ⟨ch2, hlk2b, -, hc2⟩
      · rw [hlk2] at hlk2b; cases hlk2b
      · rw [hlk2] at hlk2b
        injection hlk2b with he
        rw [hc2, ← he, hc1]

/-- Witness for the C6 theorem: two concrete calls with the same name on
different days of the same week; the second references chore id 10 created
by the first. -/
theorem claim_C6_adhoc_chore_reuse_witness :
    (adhocLookup dbC6 reqC6a.name = none ∧
     create_adhoc_chore dbC6 1 10 20 reqC6a = (dbC6after1, .ok compC6a) ∧
     (dbC6after1.chores = dbC6.chores ++ [newAdhocChore 10 reqC6a] ∧
      compC6a.chore_id = 10 ∧
      (newAdhocChore 10 reqC6a).is_active = false ∧
      (newAdhocChore 10 reqC6a).is_adhoc = true ∧
      (newAdhocChore 10 reqC6a).assigned_user_id = none ∧
      (newAdhocChore 10 reqC6a).frequency = "weekly")) ∧
    (reqC6b.name = reqC6a.name ∧
     create_adhoc_chore dbC6after1 2 11 21 reqC6b = (dbC6after2, .ok compC6b) ∧
     compC6b.chore_id = compC6a.chore_id) :=
  ⟨⟨by decide, by rfl,
      claim_C6_adhoc_chore_reuse.1 dbC6 1 10 20 reqC6a dbC6after1 compC6a (by decide)
        (by rfl)⟩,
   ⟨by decide, by rfl,
      claim_C6_adhoc_chore_reuse.2 dbC6 1 2 10 20 11 21 reqC6a reqC6b dbC6after1 dbC6after2
        compC6a compC6b (by decide) (by rfl) (by rfl)⟩⟩

/-- Claim C10: create_chore validates the assigned user only when the value
is truthy, so assigned_user_id 0 skips the existence check and the create
succeeds even though no user 0 exists; update_chore checks every non-None
value including 0 and fails with the unknown-user error. -/
theorem claim_C10_zero_assigned_user_id
    (db : DB) (nid cid : Int) (reqc : ChoreCreate) (requ : ChoreUpdate)
    (hnouser : db.users.find? (fun u => u.id == 0) = none)
    (hc0 : reqc.assigned_user_id = some 0)
    (hu0 : requ.assigned_user_id = some 0) :
    exceptOk (create_chore db nid reqc) = true ∧
    ((db.chores.find? (fun c => c.id == cid)).isSome = true →
      update_chore db cid requ = .error .NotFound) := by
  constructor
  · simp [create_chore, hc0, exceptOk]
  · intro hch
    rcases Option.isSome_iff_exists.mp hch with ⟨ch, hch2⟩
    simp [update_chore, hch2, hu0, hnouser]

/-- Witness for the C10 theorem at a concrete input. -/
theorem claim_C10_zero_assigned_user_id_witness :
    dbC10.users.find? (fun u => u.id == 0) = none ∧
    reqC10create.assigned_user_id = some 0 ∧
    reqC10update.assigned_user_id = some 0 ∧
    (exceptOk (create_chore dbC10 4 reqC10create) = true ∧
     ((dbC10.chores.find? (fun c => c.id == 3)).isSome = true →
       update_chore dbC10 3 reqC10update = .error .NotFound)) :=
  ⟨by decide, by decide, by decide,
    claim_C10_zero_assigned_user_id dbC10 4 3 reqC10create reqC10update (by decide)
      (by decide) (by decide)⟩

theorem weeklyAssemble_chores_pairwise (db : DB) (ws : Int) (actives : List Chore) :
    (weeklyAssemble db ws actives).chores.Pairwise
      (fun a b => lexLe (lowerChars a.name) (lowerChars b.name) = true) := by
  unfold weeklyAssemble
  dsimp only
  rw [List.pairwise_map]
  exact pairwise_insertionSortB nameLe nameLe_total nameLe_trans _

theorem weeklyAssemble_completed_count (db : DB) (ws : Int) (actives : List Chore) :
    (weeklyAssemble db ws actives).completed_chores =
    ((weeklyAssemble db ws actives).chores.map (fun e =>
      (db.completions.filter
        (fun c => c.chore_id == e.id && c.week_start == ws)).length)).sum := by
  unfold weeklyAssemble
  dsimp only
  rw [List.map_map, List.map_map]
  refine congrArg List.sum (List.map_eq_map_iff.mpr ?_)
  intro ch _
  dsimp only [Function.comp]
  rw [List.filter_filter]

/-- Claim C3: every successful weekly view has its final chore list ordered
case-insensitively by chore name (the merged re-sort by name alone, taking
priority over the frequency rank order), its total chore count equal to
the length of that list, and its total completion count equal to the sum
over the listed chores of the number of their completions for the
requested week, counting every completion. -/
theorem claim_C3_weekly_view_order_and_totals
    (db : DB) (today : Int) (wsq uq : Option Int) (fq : Option String) (r : WeeklyResult)
    (h : get_weekly_chores db today wsq uq fq = .ok r) :
    r.chores.Pairwise (fun a b => lexLe (lowerChars a.name) (lowerChars b.name) = true) ∧
    r.total_chores = r.chores.length ∧
    r.completed_chores = (r.chores.map (fun e =>
      (db.completions.filter
        (fun c => c.chore_id == e.id && c.week_start == r.week_start)).length)).sum := by
  have hmain : ∀ (ws : Int) (acts : List Chore), r = weeklyAssemble db ws acts →
      r.chores.Pairwise
        (fun a b => lexLe (lowerChars a.name) (lowerChars b.name) = true) ∧
      r.total_chores = r.chores.length ∧
      r.completed_chores = (r.chores.map (fun e =>
        (db.completions.filter
          (fun c => c.chore_id == e.id && c.week_start == r.week_start)).length)).sum := by
    rintro ws acts rfl
    exact ⟨weeklyAssemble_chores_pairwise db ws acts, rfl,
      weeklyAssemble_completed_count db ws acts⟩
  unfold get_weekly_chores at h
  dsimp only at h
  cases fq with
  | none => exact hmain _ _ (Except.ok.inj h).symm
  | some f =>
    dsimp only at h
    split at h
    · split at h
      · exact hmain _ _ (Except.ok.inj h).symm
      · simp at h
    · exact hmain _ _ (Except.ok.inj h).symm

/-- Witness for the C3 theorem at a concrete store: the merged list comes
back ordered attic, dishes, Trash with two completions counted. -/
theorem claim_C3_weekly_view_order_and_totals_witness :
    get_weekly_chores dbC3 9 (some 8) none none = .ok weeklyC3 ∧
    (weeklyC3.chores.Pairwise
      (fun a b => lexLe (lowerChars a.name) (lowerChars b.name) = true) ∧
     weeklyC3.total_chores = weeklyC3.chores.length ∧
     weeklyC3.completed_chores = (weeklyC3.chores.map (fun e =>
       (dbC3.completions.filter
         (fun c => c.chore_id == e.id && c.week_start == weeklyC3.week_start)).length)).sum) :=
  ⟨by rfl, claim_C3_weekly_view_order_and_totals dbC3 9 (some 8) none none weeklyC3 (by rfl)⟩

end ChoreScore
